import Mathlib

/-!
Verification development for the Identy hardware-fingerprint library.

The definitions below are shallow embeddings of the C++ sources:
* `Identy_sha256.cxx` / `Identy_sha256.hxx` — the streaming SHA-256 engine;
* `Identy_hash.cxx` — motherboard serialization and the default hash entry points;
* `Identy_hwid.cxx` — the SMBIOS UUID table walker;
* `Identy_vm.cxx` — the SMBIOS manufacturer walker and the VM heuristic engine.

Machine integers are modelled as `Nat` with explicit reduction modulo `2^32`
(or `2^64`) wherever the C++ arithmetic overflows.  Byte buffers are `List Nat`.
Code paths whose C++ semantics is an out-of-bounds read are modelled in the
`Except Unit` monad: `.error ()` marks an execution that reads past the buffer.
-/

namespace Identy

/-- The modulus `2^32` of all 32-bit arithmetic in the SHA-256 engine. -/
def M32 : Nat := 4294967296

/-- The modulus `2^64` of the 64-bit `m_total_len` counter. -/
def M64 : Nat := 18446744073709551616

/-- Embeds `Sha256::rotr`: 32-bit right rotation, `(x >> n) | (x << (32 - n))`. -/
def rotr (x n : Nat) : Nat := ((x >>> n) ||| (x <<< (32 - n))) % M32

/-- Embeds `Sha256::choose`: `(e & f) ^ (~e & g)`; the 32-bit complement of `e` is
`e ^ 0xFFFFFFFF`. -/
def choose (e f g : Nat) : Nat := (e &&& f) ^^^ ((e ^^^ 0xFFFFFFFF) &&& g)

/-- Embeds `Sha256::majority`: `(a & b) ^ (a & c) ^ (b & c)`. -/
def majority (a b c : Nat) : Nat := (a &&& b) ^^^ (a &&& c) ^^^ (b &&& c)

/-- Embeds `Sha256::sigma0`: `rotr(x,2) ^ rotr(x,13) ^ rotr(x,22)`. -/
def sigma0 (x : Nat) : Nat := rotr x 2 ^^^ rotr x 13 ^^^ rotr x 22

/-- Embeds `Sha256::sigma1`: `rotr(x,6) ^ rotr(x,11) ^ rotr(x,25)`. -/
def sigma1 (x : Nat) : Nat := rotr x 6 ^^^ rotr x 11 ^^^ rotr x 25

/-- Embeds `Sha256::gamma0`: `rotr(x,7) ^ rotr(x,18) ^ (x >> 3)`. -/
def gamma0 (x : Nat) : Nat := rotr x 7 ^^^ rotr x 18 ^^^ (x >>> 3)

/-- Embeds `Sha256::gamma1`: `rotr(x,17) ^ rotr(x,19) ^ (x >> 10)`. -/
def gamma1 (x : Nat) : Nat := rotr x 17 ^^^ rotr x 19 ^^^ (x >>> 10)

/-- Embeds `Sha256::k_round_constants`, the 64 FIPS 180-4 round constants. -/
def k_round_constants : List Nat :=
  [1116352408, 1899447441, 3049323471, 3921009573, 961987163,
   1508970993, 2453635748, 2870763221, 3624381080, 310598401,
   607225278, 1426881987, 1925078388, 2162078206, 2614888103,
   3248222580, 3835390401, 4022224774, 264347078, 604807628,
   770255983, 1249150122, 1555081692, 1996064986, 2554220882,
   2821834349, 2952996808, 3210313671, 3336571891, 3584528711,
   113926993, 338241895, 666307205, 773529912, 1294757372,
   1396182291, 1695183700, 1986661051, 2177026350, 2456956037,
   2730485921, 2820302411, 3259730800, 3345764771, 3516065817,
   3600352804, 4094571909, 275423344, 430227734, 506948616,
   659060556, 883997877, 958139571, 1322822218, 1537002063,
   1747873779, 1955562222, 2024104815, 2227730452, 2361852424,
   2428436474, 2756734187, 3204031479, 3329325298]

/-- Embeds `Sha256::k_initial_hash`, the 8 initial state words (the values
are written in decimal). -/
def k_initial_hash : List Nat :=
  [1779033703, 3144134277, 1013904242, 2773480762,
   1359893119, 2600822924, 528734635, 1541459225]

/-- Big-endian packing of a 64-byte block into 16 words
(the first loop of `Sha256::transform`). -/
def toWords : List Nat → List Nat
  | b0 :: b1 :: b2 :: b3 :: rest =>
      ((b0 <<< 24) ||| (b1 <<< 16) ||| (b2 <<< 8) ||| b3) :: toWords rest
  | _ => []

/-- Message-schedule extension (the second loop of `Sha256::transform`):
appends `gamma1 w[i-2] + w[i-7] + gamma0 w[i-15] + w[i-16]` mod `2^32`,
`k` times. -/
def extendSchedule (ws : List Nat) : Nat → List Nat
  | 0 => ws
  | k + 1 =>
      let n := ws.length
      extendSchedule
        (ws ++ [(gamma1 (ws.getD (n - 2) 0) + ws.getD (n - 7) 0 +
                 gamma0 (ws.getD (n - 15) 0) + ws.getD (n - 16) 0) % M32]) k

/-- One round of the compression loop of `Sha256::transform`; the state is the
tuple `(a,b,c,d,e,f,g,h)` and `kw` is `(k_round_constants[i], w[i])`. -/
def roundStep (st : Nat × Nat × Nat × Nat × Nat × Nat × Nat × Nat)
    (kw : Nat × Nat) : Nat × Nat × Nat × Nat × Nat × Nat × Nat × Nat :=
  let (a, b, c, d, e, f, g, h) := st
  let t1 := (h + sigma1 e + choose e f g + kw.1 + kw.2) % M32
  let t2 := (sigma0 a + majority a b c) % M32
  ((t1 + t2) % M32, a, b, c, (d + t1) % M32, e, f, g)

/-- Embeds `Sha256::transform`: compresses one 64-byte block into the 8-word state. -/
def transform (state : List Nat) (block : List Nat) : List Nat :=
  let w := extendSchedule (toWords block) 48
  let init := (state.getD 0 0, state.getD 1 0, state.getD 2 0, state.getD 3 0,
               state.getD 4 0, state.getD 5 0, state.getD 6 0, state.getD 7 0)
  let (a, b, c, d, e, f, g, h) := (k_round_constants.zip w).foldl roundStep init
  [(state.getD 0 0 + a) % M32, (state.getD 1 0 + b) % M32,
   (state.getD 2 0 + c) % M32, (state.getD 3 0 + d) % M32,
   (state.getD 4 0 + e) % M32, (state.getD 5 0 + f) % M32,
   (state.getD 6 0 + g) % M32, (state.getD 7 0 + h) % M32]

/-- The mutable state of a `Sha256` object: `m_state`, the buffered bytes of
`m_block` (only the `m_block_len` valid ones), `m_total_len`, `m_finalized`. -/
structure Sha256State where
  state : List Nat
  block : List Nat
  total : Nat
  finalized : Bool
  deriving DecidableEq

/-- Embeds `Sha256::reset` / the freshly constructed object. -/
def initCtx : Sha256State :=
  { state := k_initial_hash, block := [], total := 0, finalized := false }

/-- The `while(len >= block_size)` loop of `Sha256::update`, with explicit
fuel (one unit per processed block; the fuel is always sufficient because each
step removes 64 bytes). Returns the compressed state and the remaining tail. -/
def processBlocksAux (h : List Nat) (d : List Nat) : Nat → List Nat × List Nat
  | 0 => (h, d)
  | n + 1 =>
      if 64 ≤ d.length then
        processBlocksAux (transform h (d.take 64)) (d.drop 64) n
      else (h, d)

/-- The full-block processing loop of `Sha256::update`. -/
def processBlocks (h : List Nat) (d : List Nat) : List Nat × List Nat :=
  processBlocksAux h d d.length

/-- Embeds `Sha256::update`. -/
def update (s : Sha256State) (data : List Nat) : Sha256State :=
  if data.length = 0 then s
  else
    let total := (s.total + data.length) % M64
    if 0 < s.block.length then
      let space := 64 - s.block.length
      if data.length < space then
        { s with block := s.block ++ data, total := total }
      else
        let h1 := transform s.state (s.block ++ data.take space)
        let p := processBlocks h1 (data.drop space)
        { state := p.1, block := p.2, total := total, finalized := s.finalized }
    else
      let p := processBlocks s.state data
      { state := p.1, block := p.2, total := total, finalized := s.finalized }

/-- Big-endian serialization of the 64-bit bit length (final 8 bytes of the
padding block in `Sha256::finalize`). -/
def u64be (x : Nat) : List Nat :=
  [(x >>> 56) % 256, (x >>> 48) % 256, (x >>> 40) % 256, (x >>> 32) % 256,
   (x >>> 24) % 256, (x >>> 16) % 256, (x >>> 8) % 256, x % 256]

/-- Big-endian serialization of one 32-bit state word (output loop of
`Sha256::finalize`). -/
def u32be (x : Nat) : List Nat :=
  [(x >>> 24) % 256, (x >>> 16) % 256, (x >>> 8) % 256, x % 256]

/-- Embeds `Sha256::finalize`: appends `0x80`, pads, appends the big-endian bit
length, compresses the final block(s) and serializes the state big-endian. -/
def finalizeDigest (s : Sha256State) : List Nat :=
  let bitLen := (s.total * 8) % M64
  let blk1 := s.block ++ [0x80]
  let stAndBlk :=
    if 56 < blk1.length then
      (transform s.state (blk1 ++ List.replicate (64 - blk1.length) 0),
       ([] : List Nat))
    else (s.state, blk1)
  let finalBlk := stAndBlk.2 ++ List.replicate (56 - stAndBlk.2.length) 0 ++
    u64be bitLen
  ((transform stAndBlk.1 finalBlk).map u32be).flatten

/-- Embeds `Sha256::hash`, the static one-shot convenience: fresh context, one
`update`, then `finalize`. -/
def sha256hash (data : List Nat) : List Nat :=
  finalizeDigest (update initCtx data)

/-- Little-endian byte serialization of a 32-bit value, as produced by
`reinterpret_cast<const byte*>` over a 4-byte field in `serialize_motherboard`. -/
def u32le (x : Nat) : List Nat :=
  [x % 256, (x >>> 8) % 256, (x >>> 16) % 256, (x >>> 24) % 256]

/-- Embeds `identy::Cpu::_instruction_set` (three 32-bit feature words; the
`extended_modern` array holds 3 words). -/
structure InstructionSet where
  basic : Nat
  modern : Nat
  extended_modern : List Nat
  deriving DecidableEq

/-- Embeds `identy::Cpu` (`Identy_hwid.hxx`); strings are byte lists, 32-bit register
values are their `Nat` bit patterns. -/
structure Cpu where
  vendor : List Nat
  version : Nat
  hypervisor_bit : Bool
  brand_index : Nat
  clflush_line_size : Nat
  logical_processors_count : Nat
  apic_id : Nat
  extended_brand_string : List Nat
  hypervisor_signature : List Nat
  instruction_set : InstructionSet
  too_old : Bool
  deriving DecidableEq

/-- Embeds `identy::SMBIOS` (`Identy_hwid.hxx`): flag/version bytes, the 16-byte
UUID and the raw table bytes. -/
structure SMBIOS where
  is_20_calling_used : Bool
  major_version : Nat
  minor_version : Nat
  dmi_version : Nat
  uuid : List Nat
  raw_tables_data : List Nat
  deriving DecidableEq

/-- Embeds `identy::Motherboard`. -/
structure Motherboard where
  cpu : Cpu
  smbios : SMBIOS
  deriving DecidableEq

/-- Embeds `identy::PhysicalDriveInfo::BusType` (`Identy_hwid.hxx`): `SATA`, `NMVe`,
`USB`, `Other`, with underlying values 0..3. -/
inductive BusType where
  | SATA
  | NMVe
  | USB
  | Other
  deriving DecidableEq

/-- The underlying integer value of a `BusType` enumerator (declaration
order in `Identy_hwid.hxx`). -/
def busTypeVal : BusType → Nat
  | .SATA => 0
  | .NMVe => 1
  | .USB => 2
  | .Other => 3

/-- Embeds `identy::PhysicalDriveInfo` (the fields read by
`serialize_motherboard_ex`). -/
structure PhysicalDriveInfo where
  bus_type : BusType
  device_name : List Nat
  serial : List Nat
  deriving DecidableEq

/-- Embeds `identy::MotherboardEx`. -/
structure MotherboardEx where
  cpu : Cpu
  smbios : SMBIOS
  drives : List PhysicalDriveInfo
  deriving DecidableEq

/-- Embeds `serialize_motherboard` (`Identy_hash.cxx`, lines 59-105): vendor bytes,
4-byte version, brand index, clflush size, the low byte of the 32-bit logical
processor count (`push_back` truncates it to `byte`), APIC id, extended brand
bytes, the three instruction-set words (the third field is a 3-word array,
12 bytes), the SMBIOS flag/version bytes, the 16 UUID bytes, and finally the
raw SMBIOS table bytes. -/
def serialize_motherboard (board : Motherboard) : List Nat :=
  board.cpu.vendor
    ++ u32le board.cpu.version
    ++ [board.cpu.brand_index, board.cpu.clflush_line_size,
        board.cpu.logical_processors_count % 256, board.cpu.apic_id]
    ++ board.cpu.extended_brand_string
    ++ u32le board.cpu.instruction_set.basic
    ++ u32le board.cpu.instruction_set.modern
    ++ (board.cpu.instruction_set.extended_modern.map u32le).flatten
    ++ [if board.smbios.is_20_calling_used then 1 else 0,
        board.smbios.major_version, board.smbios.minor_version,
        board.smbios.dmi_version]
    ++ board.smbios.uuid
    ++ board.smbios.raw_tables_data

/-- The bytes one drive contributes inside the loop of
`serialize_motherboard_ex`: the 4 bytes of the `bus_type` enum value, the
device-name bytes, the serial bytes. -/
def serialize_drive (d : PhysicalDriveInfo) : List Nat :=
  u32le (busTypeVal d.bus_type) ++ d.device_name ++ d.serial

/-- Embeds `serialize_motherboard_ex` (`Identy_hash.cxx`, lines 113-136): the base
motherboard serialization followed by each drive of `board.drives`, in vector
order, with no sorting and no bus-type filtering. -/
def serialize_motherboard_ex (board : MotherboardEx) : List Nat :=
  board.drives.foldl (fun buffer drive => buffer ++ serialize_drive drive)
    (serialize_motherboard { cpu := board.cpu, smbios := board.smbios })

/-- The all-zero 32-byte digest of a zero-valued `Hash256` object. -/
def zeroHash32 : List Nat := List.replicate 32 0

/-- Modelled from the spec: the body of `compute_sha256` (`Identy_hash.cxx`,
lines 21-51) is Windows CryptoAPI calls (`CryptAcquireContextW`,
`CryptCreateHash` with `CALG_SHA_256`, `CryptHashData`) whose implementation
is not part of this repository; per the spec the digest contract is standard
FIPS 180-4 SHA-256 with 32-byte big-endian layout, and every failing API call
returns the still-zero `Hash256 {}`.  `apiOk` abstracts whether the CryptoAPI
calls succeed. -/
def compute_sha256 (apiOk : Bool) (data : List Nat) : List Nat :=
  if apiOk then sha256hash data else zeroHash32

/-- Embeds `default_hash` on the `IDENTY_WIN32` build (`Identy_hash.cxx`, lines
142-144): SHA-256 of the serialized motherboard via the CryptoAPI. -/
def default_hash_win (apiOk : Bool) (board : Motherboard) : List Nat :=
  compute_sha256 apiOk (serialize_motherboard board)

/-- Embeds `default_hash_ex` on the `IDENTY_WIN32` build (`Identy_hash.cxx`, lines
152-154). -/
def default_hash_ex_win (apiOk : Bool) (board : MotherboardEx) : List Nat :=
  compute_sha256 apiOk (serialize_motherboard_ex board)

/-- Embeds `default_hash` on a non-Windows build (`Identy_hash.cxx`, line 146):
`return Hash256();`, the all-zero digest, for every input. -/
def default_hash_nonwin (_ : Motherboard) : List Nat := zeroHash32

/-- Embeds `default_hash_ex` on a non-Windows build (`Identy_hash.cxx`, line 156). -/
def default_hash_ex_nonwin (_ : MotherboardEx) : List Nat := zeroHash32

/-- Bounds-checked byte read; `.error ()` models a C++ read past the end of
the SMBIOS blob (undefined behaviour in the source). -/
def rd (blob : List Nat) (i : Nat) : Except Unit Nat :=
  match blob[i]? with
  | some v => .ok v
  | none => .error ()

/-- The string-table terminator scan shared by both walkers
(`while(next + 1 < end && (*next != 0 || *(next + 1) != 0)) next++;`);
its reads are guarded by `next + 1 < end`, hence always in bounds.  The fuel
is set to `blob.length` by the callers, which the loop cannot exceed. -/
def scanTerm (blob : List Nat) : Nat → Nat → Nat
  | next, 0 => next
  | next, fuel + 1 =>
      if next + 1 < blob.length &&
          (blob.getD next 0 != 0 || blob.getD (next + 1) 0 != 0) then
        scanTerm blob (next + 1) fuel
      else next

/-- The record-walk loop of `get_smbios_uuid` (`Identy_hwid.cxx`, lines
132-160).  Each iteration reads the record type at `off` and the record
length at `off + 1` (the source reads `header->length` in the type-1 guard
or at line 149, in every path, with no check that `off + 1` is inside the
blob).  A type-1 record of claimed length ≥ 24 returns the 16 bytes at
record offset 8, or the empty result if they would extend past the end;
otherwise the walk skips the formatted area and the string table and
continues 2 bytes past the double-NUL terminator. -/
def uuidWalkAux (blob : List Nat) : Nat → Nat → Except Unit (List Nat)
  | 0, _ => .ok []
  | fuel + 1, off =>
      if off < blob.length then do
        let ty ← rd blob off
        let len ← rd blob (off + 1)
        if ty = 1 ∧ 24 ≤ len then
          if blob.length < off + 24 then .ok []
          else .ok ((blob.drop (off + 8)).take 16)
        else
          let next := scanTerm blob (off + len) blob.length
          if blob.length < next + 2 then .ok []
          else uuidWalkAux blob fuel (next + 2)
      else .ok []

/-- Embeds `get_smbios_uuid` (`Identy_hwid.cxx`, lines 124-163): walk from offset 0.
The fuel `blob.length + 1` is sufficient because every iteration either
terminates or advances the offset by at least 2 while it stays below
`blob.length`. -/
def get_smbios_uuid (blob : List Nat) : Except Unit (List Nat) :=
  uuidWalkAux blob (blob.length + 1) 0

/-- The bytes of the NUL-terminated C string starting at `p` (what
`std::string_view(ptr)` materializes): reads every byte up to and including
the terminator, erroring if it runs off the blob.  Callers pass fuel
`blob.length + 1`, which always suffices (each step advances `p`, and `rd`
fails as soon as `p` leaves the blob). -/
def cstr (blob : List Nat) : Nat → Nat → Except Unit (List Nat)
  | 0, _ => .error ()
  | fuel + 1, p => do
      let c ← rd blob p
      if c = 0 then .ok []
      else do
        let rest ← cstr blob fuel (p + 1)
        .ok (c :: rest)

/-- The index-skipping loop of `get_smbios_string` (`Identy_vm.cxx`, lines
153-155): `while(--index > 0 && *ptr) ptr += strlen(ptr) + 1;` — runs at
most `idx - 1` times, reading `*ptr` and then the whole string (unbounded by
the blob length in the source). -/
def strSkip (blob : List Nat) : Nat → Nat → Except Unit Nat
  | 0, p => .ok p
  | k + 1, p => do
      let c ← rd blob p
      if c = 0 then .ok p
      else do
        let s ← cstr blob (blob.length + 1) p
        strSkip blob k (p + s.length + 1)

/-- Embeds `get_smbios_string` (`Identy_vm.cxx`, lines 145-158): resolves a 1-based
string index in the string table that follows the formatted area of the
record starting at `recOff`.  Index 0 returns the empty string without any
read; otherwise the record length byte at `recOff + 1` is read, `idx - 1`
strings are skipped, and the string at the final position is materialized. -/
def get_smbios_string (blob : List Nat) (recOff : Nat) (idx : Nat) :
    Except Unit (List Nat) :=
  if idx = 0 then .ok []
  else do
    let len ← rd blob (recOff + 1)
    let p ← strSkip blob (idx - 1) (recOff + len)
    cstr blob (blob.length + 1) p

/-- The record-walk loop of `get_smbios_manufacturer` (`Identy_vm.cxx`,
lines 168-191).  At a type-1 record the manufacturer string index byte at
record offset 4 is read (with no bounds check in the source) and, when
non-zero, the manufacturer view is (re)assigned via `get_smbios_string`
— the walk continues and a later type-1 record overwrites it.  Every
iteration then reads the record length byte at `off + 1` and skips past the
string-table terminator. -/
def manufWalkAux (blob : List Nat) : Nat → Nat → List Nat →
    Except Unit (List Nat)
  | 0, _, acc => .ok acc
  | fuel + 1, off, acc =>
      if off < blob.length then do
        let ty ← rd blob off
        let acc' ←
          if ty = 1 then do
            let idx ← rd blob (off + 4)
            if idx ≠ 0 then get_smbios_string blob off idx else .ok acc
          else .ok acc
        let len ← rd blob (off + 1)
        let next := scanTerm blob (off + len) blob.length
        if blob.length < next + 2 then .ok acc'
        else manufWalkAux blob fuel (next + 2) acc'
      else .ok acc

/-- Embeds `get_smbios_manufacturer` (`Identy_vm.cxx`, lines 160-194): walks
`smbios.raw_tables_data` from offset 0 with an initially empty manufacturer. -/
def get_smbios_manufacturer (s : SMBIOS) : Except Unit (List Nat) :=
  manufWalkAux s.raw_tables_data (s.raw_tables_data.length + 1) 0 []

/-- Embeds `ctolower` (`Identy_vm.cxx`): ASCII lower-casing of one byte. -/
def ctolower (c : Nat) : Nat := if 65 ≤ c ∧ c ≤ 90 then c + 32 else c

/-- Case-sensitive "needle is a prefix of hay" on byte lists. -/
def isPreAt : List Nat → List Nat → Bool
  | [], _ => true
  | _ :: _, [] => false
  | a :: as, b :: bs => a == b && isPreAt as bs

/-- Embeds `std::string::find(sub) != npos`: case-sensitive substring containment. -/
def containsSub (hay needle : List Nat) : Bool :=
  (List.range (hay.length + 1)).any fun i => isPreAt needle (hay.drop i)

/-- Case-insensitive prefix test using `char_equal_icase`. -/
def isPreAtIcase : List Nat → List Nat → Bool
  | [], _ => true
  | _ :: _, [] => false
  | a :: as, b :: bs => ctolower a == ctolower b && isPreAtIcase as bs

/-- Embeds `contains_icase` (`Identy_vm.cxx`, lines 86-97): case-insensitive
substring search (`std::search` with `char_equal_icase`); the empty needle
is contained in everything. -/
def containsSubIcase (hay needle : List Nat) : Bool :=
  (List.range (hay.length + 1)).any fun i => isPreAtIcase needle (hay.drop i)

/-- Embeds `microsoft_hyperv_sig`: the bytes of the string "Microsoft Hv". -/
def microsoft_hyperv_sig : List Nat :=
  [77, 105, 99, 114, 111, 115, 111, 102, 116, 32, 72, 118]

/-- Embeds `known_hypervisor_signatures` (`Identy_vm.cxx`, lines 11-21): KVM,
KVMKVMKVM, VMwareVMware, VBoxVBoxVBox, TCGTCGTCG, ACRNACRN, bhyve bhyve,
Xen, Microsoft Hv — as ASCII byte lists. -/
def known_hypervisor_signatures : List (List Nat) :=
  [[75, 86, 77],
   [75, 86, 77, 75, 86, 77, 75, 86, 77],
   [86, 77, 119, 97, 114, 101, 86, 77, 119, 97, 114, 101],
   [86, 66, 111, 120, 86, 66, 111, 120, 86, 66, 111, 120],
   [84, 67, 71, 84, 67, 71, 84, 67, 71],
   [65, 67, 82, 78, 65, 67, 82, 78],
   [98, 104, 121, 118, 101, 32, 98, 104, 121, 118, 101],
   [88, 101, 110],
   microsoft_hyperv_sig]

/-- Embeds `known_vm_manufacturers` (`Identy_vm.cxx`, lines 23-31): innotek GmbH,
Oracle, VMware, Inc., QEMU, Xen, Microsoft Corporation, Parallels — as
ASCII byte lists. -/
def known_vm_manufacturers : List (List Nat) :=
  [[105, 110, 110, 111, 116, 101, 107, 32, 71, 109, 98, 72],
   [79, 114, 97, 99, 108, 101],
   [86, 77, 119, 97, 114, 101, 44, 32, 73, 110, 99, 46],
   [81, 69, 77, 85],
   [88, 101, 110],
   [77, 105, 99, 114, 111, 115, 111, 102, 116, 32, 67, 111, 114, 112,
    111, 114, 97, 116, 105, 111, 110],
   [80, 97, 114, 97, 108, 108, 101, 108, 115]]

/-- Embeds `known_vm_network_adapters` (`Identy_vm.cxx`, lines 33-46): vmware,
vmxnet, vmnet, virtualbox, vbox, hyper-v, microsoft hyper-v, virtio,
red hat virtio, xennet, xen, parallels — as ASCII byte lists. -/
def known_vm_network_adapters : List (List Nat) :=
  [[118, 109, 119, 97, 114, 101],
   [118, 109, 120, 110, 101, 116],
   [118, 109, 110, 101, 116],
   [118, 105, 114, 116, 117, 97, 108, 98, 111, 120],
   [118, 98, 111, 120],
   [104, 121, 112, 101, 114, 45, 118],
   [109, 105, 99, 114, 111, 115, 111, 102, 116, 32, 104, 121, 112, 101,
    114, 45, 118],
   [118, 105, 114, 116, 105, 111],
   [114, 101, 100, 32, 104, 97, 116, 32, 118, 105, 114, 116, 105, 111],
   [120, 101, 110, 110, 101, 116],
   [120, 101, 110],
   [112, 97, 114, 97, 108, 108, 101, 108, 115]]

/-- Embeds `identy::vm::VMFlags`, with the storage flags used by `Identy_vm.cxx`
(`check_drive` and `DefaultHeuristicEx::operator()`). -/
inductive VMFlags where
  | Cpu_Hypervisor_bit
  | Cpu_Hypervisor_signature
  | SMBIOS_SuspiciousManufacturer
  | SMBIOS_SuspiciousUUID
  | SMBIOS_UUIDTotallyZeroed
  | Storage_SuspiciousSerial
  | Storage_ProductIdKnownVM
  | Storage_BusTypeIsVirtual
  | Storage_BusTypeUncommon
  | Storage_AllDrivesBusesVirtual
  | Storage_AllDrivesVendorProductKnownVM
  | Platform_WindowsRegistry
  | Platform_LinuxDevices
  | Platform_VirtualNetworkAdaptersPresent
  | Platform_OnlyVirtualNetworkAdapters
  | Platform_AccessToNetworkDevicesDenied
  | Platform_HyperVIsolation
  deriving DecidableEq

/-- Embeds `identy::vm::detail::FlagStrength`. -/
inductive FlagStrength where
  | Weak
  | Medium
  | Strong
  | Critical
  deriving DecidableEq

/-- Embeds `identy::vm::VMConfidence`. -/
inductive VMConfidence where
  | Unlikely
  | Possible
  | Probable
  | DefinitelyVM
  deriving DecidableEq

/-- Embeds `get_flag_strength` (`Identy_vm.cxx`, lines 298-331). -/
def get_flag_strength : VMFlags → FlagStrength
  | .Platform_HyperVIsolation => .Weak
  | .Platform_VirtualNetworkAdaptersPresent => .Weak
  | .SMBIOS_SuspiciousUUID => .Medium
  | .Platform_OnlyVirtualNetworkAdapters => .Medium
  | .Storage_BusTypeUncommon => .Medium
  | .Cpu_Hypervisor_bit => .Strong
  | .Cpu_Hypervisor_signature => .Strong
  | .Storage_BusTypeIsVirtual => .Strong
  | .Storage_ProductIdKnownVM => .Strong
  | .SMBIOS_SuspiciousManufacturer => .Strong
  | .SMBIOS_UUIDTotallyZeroed => .Critical
  | .Storage_AllDrivesBusesVirtual => .Critical
  | .Storage_AllDrivesVendorProductKnownVM => .Critical
  | .Storage_SuspiciousSerial => .Medium
  | .Platform_WindowsRegistry => .Medium
  | .Platform_LinuxDevices => .Medium
  | .Platform_AccessToNetworkDevicesDenied => .Medium

/-- One iteration of the counting loop of `calculate_confidence`: the
accumulator is `(weak, medium, strong, critical)`. -/
def tallyStep (acc : Nat × Nat × Nat × Bool) (flag : VMFlags) :
    Nat × Nat × Nat × Bool :=
  match get_flag_strength flag with
  | .Weak => (acc.1 + 1, acc.2.1, acc.2.2.1, acc.2.2.2)
  | .Medium => (acc.1, acc.2.1 + 1, acc.2.2.1, acc.2.2.2)
  | .Strong => (acc.1, acc.2.1, acc.2.2.1 + 1, acc.2.2.2)
  | .Critical => (acc.1, acc.2.1, acc.2.2.1, true)

/-- Embeds `calculate_confidence` (`Identy_vm.cxx`, lines 333-372): tally the
strengths, then threshold. -/
def calculate_confidence (detections : List VMFlags) : VMConfidence :=
  let t := detections.foldl tallyStep (0, 0, 0, false)
  if t.2.2.2 then .DefinitelyVM
  else if 2 ≤ t.2.2.1 then .DefinitelyVM
  else if 1 ≤ t.2.2.1 ∨ 3 ≤ t.2.1 then .Probable
  else if 1 ≤ t.2.1 ∨ 2 ≤ t.1 then .Possible
  else .Unlikely

/-- The aggregation formula exactly as the spec states it in §4.4, as a
function of the counts `w`, `m`, `s` of Weak/Medium/Strong flags and the
presence `c` of a Critical flag. -/
def specConfidenceFormula (w m s : Nat) (c : Bool) : VMConfidence :=
  if c then .DefinitelyVM
  else if 2 ≤ s then .DefinitelyVM
  else if 1 ≤ s ∨ 3 ≤ m then .Probable
  else if 1 ≤ m ∨ 2 ≤ w then .Possible
  else .Unlikely

/-- One network adapter as supplied by `identy::platform::list_network_adapters`
(OS enumeration, an outside input to the heuristic engine). -/
structure AdapterInfo where
  description : List Nat
  is_loopback : Bool
  is_tunnel : Bool
  deriving DecidableEq

/-- The platform adapter enumeration outcome: the adapter list and the
`access_denied` flag. -/
structure NetworkEnv where
  adapters : List AdapterInfo
  access_denied : Bool
  deriving DecidableEq

/-- Whether an adapter description matches a known virtual adapter
(the `any_of` + `contains_icase` lambda in `check_network_adapters`). -/
def is_virtual_adapter (desc : List Nat) : Bool :=
  known_vm_network_adapters.any fun k => containsSubIcase desc k

/-- The counting loop of `check_network_adapters`: the accumulator is
`(virtual_adapters_count, total_adapters_count)`. -/
def adapterTally (acc : Nat × Nat) (a : AdapterInfo) : Nat × Nat :=
  if is_virtual_adapter a.description then (acc.1 + 1, acc.2 + 1)
  else if !a.is_loopback && !a.is_tunnel then (acc.1, acc.2 + 1)
  else acc

/-- Embeds `check_network_adapters` (`Identy_vm.cxx`, lines 102-140), as a function
of the platform-supplied adapter environment. -/
def check_network_adapters (env : NetworkEnv) : List VMFlags :=
  if env.access_denied then [.Platform_AccessToNetworkDevicesDenied]
  else
    let t := env.adapters.foldl adapterTally (0, 0)
    (if 0 < t.1 then [.Platform_VirtualNetworkAdaptersPresent] else []) ++
    (if t.1 = t.2 ∧ 0 < t.2 then [.Platform_OnlyVirtualNetworkAdapters]
     else [])

/-- Embeds `is_hvci` (`Identy_vm.cxx`, lines 196-219): hypervisor bit set, signature
exactly "Microsoft Hv", and the SMBIOS manufacturer matches no known VM
manufacturer substring.  The manufacturer walk only runs after the two CPU
checks pass (short-circuit order of the source). -/
def is_hvci (cpu : Cpu) (smbios : SMBIOS) : Except Unit Bool :=
  if !cpu.hypervisor_bit then .ok false
  else if cpu.hypervisor_signature ≠ microsoft_hyperv_sig then .ok false
  else do
    let m ← get_smbios_manufacturer smbios
    .ok (!(known_vm_manufacturers.any fun k => containsSub m k))

/-- Embeds `check_smbios` (`Identy_vm.cxx`, lines 221-240): the suspicious
manufacturer flag and the two all-zero-UUID flags, in push order. -/
def check_smbios (smbios : SMBIOS) : Except Unit (List VMFlags) := do
  let m ← get_smbios_manufacturer smbios
  let d1 := if known_vm_manufacturers.any (fun k => containsSub m k) then
      [VMFlags.SMBIOS_SuspiciousManufacturer] else []
  let d2 := if smbios.uuid = List.replicate 16 0 then
      [VMFlags.SMBIOS_SuspiciousUUID, VMFlags.SMBIOS_UUIDTotallyZeroed]
    else []
  .ok (d1 ++ d2)

/-- Embeds `check_mb_common` (`Identy_vm.cxx`, lines 271-295): the HVCI branch
suppresses both CPU flags; then the SMBIOS and network adapter checks run. -/
def check_mb_common (mb : Motherboard) (env : NetworkEnv) :
    Except Unit (List VMFlags) := do
  let hvci ← is_hvci mb.cpu mb.smbios
  let d1 :=
    if hvci then [VMFlags.Platform_HyperVIsolation]
    else
      (if mb.cpu.hypervisor_bit then [VMFlags.Cpu_Hypervisor_bit] else []) ++
      (if known_hypervisor_signatures.any
          (fun s => containsSub mb.cpu.hypervisor_signature s) then
        [VMFlags.Cpu_Hypervisor_signature] else [])
  let d2 ← check_smbios mb.smbios
  .ok (d1 ++ d2 ++ check_network_adapters env)

/-- Embeds `identy::vm::HeuristicVerdict`. -/
structure HeuristicVerdict where
  detections : List VMFlags
  confidence : VMConfidence
  deriving DecidableEq

/-- Embeds `DefaultHeuristic::operator()` (`Identy_vm.cxx`, lines 374-380):
`check_mb_common` followed by `calculate_confidence`. -/
def default_heuristic (mb : Motherboard) (env : NetworkEnv) :
    Except Unit HeuristicVerdict := do
  let d ← check_mb_common mb env
  .ok { detections := d, confidence := calculate_confidence d }

/-- A minimal CPU snapshot used as concrete test input. -/
def cpu0 : Cpu :=
  { vendor := [], version := 0, hypervisor_bit := false, brand_index := 0,
    clflush_line_size := 0, logical_processors_count := 0, apic_id := 0,
    extended_brand_string := [], hypervisor_signature := [],
    instruction_set := { basic := 0, modern := 0, extended_modern := [0, 0, 0] },
    too_old := false }

/-- A minimal SMBIOS snapshot with the given raw table bytes. -/
def smbios0 (raw : List Nat) : SMBIOS :=
  { is_20_calling_used := false, major_version := 0, minor_version := 0,
    dmi_version := 0, uuid := List.replicate 16 0, raw_tables_data := raw }

/-- Two motherboards equal in every CPU/flag/version/UUID field and differing
only in `raw_tables_data`. -/
def mbRawA : Motherboard := { cpu := cpu0, smbios := smbios0 [] }

/-- The same snapshot as `mbRawA` with a one-byte raw SMBIOS table. -/
def mbRawB : Motherboard := { cpu := cpu0, smbios := smbios0 [1] }

/-- Drive "A", serial "1", SATA. -/
def driveA : PhysicalDriveInfo :=
  { bus_type := .SATA, device_name := [65], serial := [49] }

/-- Drive "B", serial "2", SATA. -/
def driveB : PhysicalDriveInfo :=
  { bus_type := .SATA, device_name := [66], serial := [50] }

/-- A USB drive with device name "U" and serial "S". -/
def driveU : PhysicalDriveInfo :=
  { bus_type := .USB, device_name := [85], serial := [83] }

/-- Extended snapshot with drives in order A, B. -/
def mbExAB : MotherboardEx := { cpu := cpu0, smbios := smbios0 [], drives := [driveA, driveB] }

/-- The same extended snapshot with drives permuted to B, A. -/
def mbExBA : MotherboardEx := { cpu := cpu0, smbios := smbios0 [], drives := [driveB, driveA] }

/-- Extended snapshot whose single drive is on the USB bus. -/
def mbExUsb : MotherboardEx := { cpu := cpu0, smbios := smbios0 [], drives := [driveU] }

/-- Extended snapshot with no drives at all. -/
def mbExNone : MotherboardEx := { cpu := cpu0, smbios := smbios0 [], drives := [] }

/-- Folding buffer-append over drives equals appending the flattened
per-drive serializations. -/
theorem foldl_serialize_drive (ds : List PhysicalDriveInfo) (init : List Nat) :
    ds.foldl (fun buffer drive => buffer ++ serialize_drive drive) init =
      init ++ (ds.map serialize_drive).flatten := by
  induction ds generalizing init with
  | nil => simp
  | cons d t ih => simp [ih, List.append_assoc]

end Identy

namespace Identy

/-- C4: the one-shot SHA-256 of the empty byte sequence and of the three
bytes "abc" equal the published FIPS 180-4 test digests, in big-endian
32-byte serialization. -/
theorem sha256_known_answer_vectors :
    sha256hash [] =
      [0xe3, 0xb0, 0xc4, 0x42, 0x98, 0xfc, 0x1c, 0x14,
       0x9a, 0xfb, 0xf4, 0xc8, 0x99, 0x6f, 0xb9, 0x24,
       0x27, 0xae, 0x41, 0xe4, 0x64, 0x9b, 0x93, 0x4c,
       0xa4, 0x95, 0x99, 0x1b, 0x78, 0x52, 0xb8, 0x55] ∧
    sha256hash [0x61, 0x62, 0x63] =
      [0xba, 0x78, 0x16, 0xbf, 0x8f, 0x01, 0xcf, 0xea,
       0x41, 0x41, 0x40, 0xde, 0x5d, 0xae, 0x22, 0x23,
       0xb0, 0x03, 0x61, 0xa3, 0x96, 0x17, 0x7a, 0x9c,
       0xb4, 0x10, 0xff, 0x61, 0xf2, 0x00, 0x15, 0xad] := by
  constructor <;> decide

/-- C10: on a non-Windows build both `default_hash` and `default_hash_ex`
return the all-zero `Hash256` for every snapshot, and on the Windows build a
failing CryptoAPI call also yields the all-zero digest. -/
theorem default_hash_platform_fallback_zero :
    (∀ b : Motherboard, default_hash_nonwin b = zeroHash32) ∧
    (∀ b : MotherboardEx, default_hash_ex_nonwin b = zeroHash32) ∧
    (∀ b : Motherboard, default_hash_win false b = zeroHash32) ∧
    (∀ b : MotherboardEx, default_hash_ex_win false b = zeroHash32) :=
  ⟨fun _ => rfl, fun _ => rfl, fun _ => rfl, fun _ => rfl⟩

/-- C1 counterexample: two motherboards with identical CPU fields, SMBIOS
flag/version bytes and UUID but different `raw_tables_data` serialize to
different byte sequences, and (on the Windows path) hash to different
digests — the raw table bytes ARE part of the hashed buffer. -/
theorem serialize_motherboard_uses_raw_tables_cex :
    serialize_motherboard mbRawA ≠ serialize_motherboard mbRawB ∧
    default_hash_win true mbRawA ≠ default_hash_win true mbRawB := by
  constructor <;> decide

/-- C1 amended: `serialize_motherboard` appends `raw_tables_data` after the
fixed fields, so for snapshots with equal CPU fields, SMBIOS flag/version
bytes and UUID, the serialized sequences agree exactly when the raw table
bytes agree. -/
theorem serialize_motherboard_raw_dependence (b1 b2 : Motherboard)
    (hcpu : b1.cpu = b2.cpu)
    (h20 : b1.smbios.is_20_calling_used = b2.smbios.is_20_calling_used)
    (hmaj : b1.smbios.major_version = b2.smbios.major_version)
    (hmin : b1.smbios.minor_version = b2.smbios.minor_version)
    (hdmi : b1.smbios.dmi_version = b2.smbios.dmi_version)
    (huuid : b1.smbios.uuid = b2.smbios.uuid) :
    serialize_motherboard b1 = serialize_motherboard b2 ↔
      b1.smbios.raw_tables_data = b2.smbios.raw_tables_data := by
  unfold serialize_motherboard
  rw [hcpu, h20, hmaj, hmin, hdmi, huuid]
  constructor
  · intro h
    exact List.append_cancel_left h
  · intro h; rw [h]

/-- C1 witness: the amended equivalence applied at a concrete snapshot. -/
theorem serialize_motherboard_raw_dependence_witness :
    serialize_motherboard mbRawA = serialize_motherboard mbRawA :=
  (serialize_motherboard_raw_dependence mbRawA mbRawA rfl rfl rfl rfl rfl
    rfl).mpr rfl

set_option maxRecDepth 8192

/-- C2 counterexample: permuting the drive vector changes both the
serialized byte sequence and the Windows-path digest, and a USB drive's
bytes are NOT excluded (a snapshot with one USB drive serializes differently
from the same snapshot with no drives). -/
theorem serialize_motherboard_ex_order_sensitive_cex :
    serialize_motherboard_ex mbExAB ≠ serialize_motherboard_ex mbExBA ∧
    default_hash_ex_win true mbExAB ≠ default_hash_ex_win true mbExBA ∧
    serialize_motherboard_ex mbExUsb ≠ serialize_motherboard_ex mbExNone := by
  refine ⟨?_, ?_, ?_⟩ <;> decide

/-- C2 amended: `serialize_motherboard_ex` is the base motherboard
serialization followed by each drive of the input vector in its given order
— (4-byte bus tag, device-name bytes, serial bytes) per drive — with no
sorting and no USB/Other exclusion; order invariance is the caller's duty. -/
theorem serialize_motherboard_ex_append_drives (board : MotherboardEx) :
    serialize_motherboard_ex board =
      serialize_motherboard { cpu := board.cpu, smbios := board.smbios } ++
        (board.drives.map serialize_drive).flatten := by
  unfold serialize_motherboard_ex
  exact foldl_serialize_drive board.drives _

/-- C3 (code bug): both SMBIOS walkers read the record length byte at offset
`off + 1` without checking that it lies inside the blob, so on the one-byte
blob `[0]` each performs an out-of-bounds read (modelled as `.error ()`). -/
theorem smbios_walkers_oob_read :
    get_smbios_uuid [0] = .error () ∧
    get_smbios_manufacturer (smbios0 [0]) = .error () := by
  constructor <;> rfl

/-- Folding the strength tally over a detection list adds the Weak, Medium
and Strong counts to the accumulator and ORs in the presence of a Critical
flag. -/
theorem foldl_tallyStep (d : List VMFlags) (acc : Nat × Nat × Nat × Bool) :
    d.foldl tallyStep acc =
      (acc.1 + d.countP (fun f => get_flag_strength f == FlagStrength.Weak),
       acc.2.1 + d.countP (fun f => get_flag_strength f == FlagStrength.Medium),
       acc.2.2.1 + d.countP (fun f => get_flag_strength f == FlagStrength.Strong),
       acc.2.2.2 || d.any (fun f => get_flag_strength f == FlagStrength.Critical)) := by
  induction d generalizing acc with
  | nil => simp
  | cons f t ih =>
      obtain ⟨w, m, s, c⟩ := acc
      have e1 : (FlagStrength.Weak == FlagStrength.Critical) = false := rfl
      have e2 : (FlagStrength.Medium == FlagStrength.Critical) = false := rfl
      have e3 : (FlagStrength.Strong == FlagStrength.Critical) = false := rfl
      cases h : get_flag_strength f <;>
        simp [tallyStep, h, ih, List.countP_cons, e1, e2, e3, Nat.add_assoc,
          Nat.add_comm, Nat.add_left_comm]

/-- Invariance of `List.any` under permutation. -/
theorem perm_any {α : Type} (p : α → Bool) {l l' : List α} (h : l.Perm l') :
    l.any p = l'.any p := by
  rw [Bool.eq_iff_iff, List.any_eq_true, List.any_eq_true]
  constructor
  · rintro ⟨x, hx, hpx⟩
    exact ⟨x, h.mem_iff.mp hx, hpx⟩
  · rintro ⟨x, hx, hpx⟩
    exact ⟨x, h.mem_iff.mpr hx, hpx⟩

/-- C8: `calculate_confidence` equals the thresholding formula of the spec
applied to the counts of Weak/Medium/Strong flags and the presence of a
Critical flag, and it is invariant under permutation of the detections
vector. -/
theorem calculate_confidence_matches_spec_formula :
    (∀ d : List VMFlags,
        calculate_confidence d =
          specConfidenceFormula
            (d.countP fun f => get_flag_strength f == FlagStrength.Weak)
            (d.countP fun f => get_flag_strength f == FlagStrength.Medium)
            (d.countP fun f => get_flag_strength f == FlagStrength.Strong)
            (d.any fun f => get_flag_strength f == FlagStrength.Critical)) ∧
    (∀ d d' : List VMFlags, d.Perm d' →
        calculate_confidence d = calculate_confidence d') := by
  have h1 : ∀ d : List VMFlags,
      calculate_confidence d =
        specConfidenceFormula
          (d.countP fun f => get_flag_strength f == FlagStrength.Weak)
          (d.countP fun f => get_flag_strength f == FlagStrength.Medium)
          (d.countP fun f => get_flag_strength f == FlagStrength.Strong)
          (d.any fun f => get_flag_strength f == FlagStrength.Critical) := by
    intro d
    unfold calculate_confidence specConfidenceFormula
    rw [foldl_tallyStep]
    simp
  refine ⟨h1, fun d d' hp => ?_⟩
  rw [h1, h1, hp.countP_eq, hp.countP_eq, hp.countP_eq, perm_any _ hp]

/-- C8 witness: order invariance at a concrete two-element detection list. -/
theorem calculate_confidence_matches_spec_formula_witness :
    calculate_confidence
        [VMFlags.Cpu_Hypervisor_bit, VMFlags.SMBIOS_SuspiciousUUID] =
      calculate_confidence
        [VMFlags.SMBIOS_SuspiciousUUID, VMFlags.Cpu_Hypervisor_bit] :=
  calculate_confidence_matches_spec_formula.2 _ _ (List.Perm.swap _ _ _)

/-- Binding an `Except.ok` reduces to the continuation. -/
theorem exbind_ok {α β : Type} (a : α) (f : α → Except Unit β) :
    (Except.ok a >>= f) = f a := rfl

/-- Every flag the network adapter check can produce is one of the three
platform adapter flags; in particular neither CPU flag ever comes from it. -/
theorem mem_check_network_adapters {f : VMFlags} {env : NetworkEnv}
    (h : f ∈ check_network_adapters env) :
    f = VMFlags.Platform_AccessToNetworkDevicesDenied ∨
    f = VMFlags.Platform_VirtualNetworkAdaptersPresent ∨
    f = VMFlags.Platform_OnlyVirtualNetworkAdapters := by
  unfold check_network_adapters at h
  split at h
  · simp at h
    exact Or.inl h
  · rcases List.mem_append.mp h with h1 | h1 <;> split at h1 <;>
      simp_all

/-- C9: for every snapshot with the hypervisor bit set, signature exactly
"Microsoft Hv", and a manufacturer (successfully extracted) that matches no
known VM manufacturer, the verdict contains `Platform_HyperVIsolation`
(a Weak flag) and neither `Cpu_Hypervisor_bit` nor
`Cpu_Hypervisor_signature`. -/
theorem hvci_suppression (mb : Motherboard) (env : NetworkEnv) (m : List Nat)
    (hbit : mb.cpu.hypervisor_bit = true)
    (hsig : mb.cpu.hypervisor_signature = microsoft_hyperv_sig)
    (hman : get_smbios_manufacturer mb.smbios = .ok m)
    (hunknown : (known_vm_manufacturers.any fun k => containsSub m k) = false) :
    ∃ v : HeuristicVerdict,
      default_heuristic mb env = .ok v ∧
      VMFlags.Platform_HyperVIsolation ∈ v.detections ∧
      VMFlags.Cpu_Hypervisor_bit ∉ v.detections ∧
      VMFlags.Cpu_Hypervisor_signature ∉ v.detections ∧
      get_flag_strength VMFlags.Platform_HyperVIsolation = FlagStrength.Weak := by
  have hhvci : is_hvci mb.cpu mb.smbios = .ok true := by
    unfold is_hvci
    rw [hbit, hsig]
    simp [hman, exbind_ok, hunknown]
  have hsm : check_smbios mb.smbios = .ok
      (if mb.smbios.uuid = List.replicate 16 0 then
        [VMFlags.SMBIOS_SuspiciousUUID, VMFlags.SMBIOS_UUIDTotallyZeroed]
      else []) := by
    unfold check_smbios
    rw [hman, exbind_ok, hunknown]
    simp
  have hcommon : check_mb_common mb env = .ok
      ([VMFlags.Platform_HyperVIsolation] ++
        (if mb.smbios.uuid = List.replicate 16 0 then
          [VMFlags.SMBIOS_SuspiciousUUID, VMFlags.SMBIOS_UUIDTotallyZeroed]
        else []) ++
        check_network_adapters env) := by
    unfold check_mb_common
    rw [hhvci, exbind_ok, hsm, exbind_ok]
    simp
  refine ⟨_, by unfold default_heuristic; rw [hcommon, exbind_ok], ?_, ?_, ?_,
    rfl⟩
  · simp
  · intro hmem
    simp only [List.mem_append] at hmem
    rcases hmem with (h1 | h1) | h1
    · simp at h1
    · split at h1 <;> simp at h1
    · rcases mem_check_network_adapters h1 with h | h | h <;> cases h
  · intro hmem
    simp only [List.mem_append] at hmem
    rcases hmem with (h1 | h1) | h1
    · simp at h1
    · split at h1 <;> simp at h1
    · rcases mem_check_network_adapters h1 with h | h | h <;> cases h

/-- The CPU of a physical host running Hyper-V isolation: hypervisor bit set
and the "Microsoft Hv" signature. -/
def cpuHvci : Cpu :=
  { cpu0 with hypervisor_bit := true,
              hypervisor_signature := microsoft_hyperv_sig }

/-- A concrete HVCI snapshot (empty raw SMBIOS tables, hence an empty
manufacturer string). -/
def mbHvci : Motherboard := { cpu := cpuHvci, smbios := smbios0 [] }

/-- A concrete adapter environment: no adapters, access granted. -/
def envNone : NetworkEnv := { adapters := [], access_denied := false }

/-- C9 witness: the suppression theorem applied at the concrete HVCI
snapshot. -/
theorem hvci_suppression_witness :
    ∃ v : HeuristicVerdict,
      default_heuristic mbHvci envNone = .ok v ∧
      VMFlags.Platform_HyperVIsolation ∈ v.detections ∧
      VMFlags.Cpu_Hypervisor_bit ∉ v.detections ∧
      VMFlags.Cpu_Hypervisor_signature ∉ v.detections ∧
      get_flag_strength VMFlags.Platform_HyperVIsolation = FlagStrength.Weak :=
  hvci_suppression mbHvci envNone [] rfl rfl rfl (by decide)

/-- Binding an `Except.error` stays an error. -/
theorem exbind_err {α β : Type} (e : Unit) (f : α → Except Unit β) :
    ((Except.error e : Except Unit α) >>= f) = Except.error e := rfl

/-- C6: postcondition of the UUID walker.  (a) The empty blob yields the
empty result.  (b) If the walk reaches offset `off` holding a record of type
1 whose claimed length is at least 24 and whose bytes at record offsets
8..23 lie inside the blob, exactly those 16 bytes are returned.  (c) If such
a record is reached but the 16 UUID bytes would extend past the buffer end,
the walk stops with the empty result.  (d) Conversely, a non-empty result is
always the 16 bytes at offset 8 of some type-1 record with claimed length at
least 24 that lies inside the blob — so a blob with no such record yields
the empty result. -/
theorem get_smbios_uuid_postcondition :
    (get_smbios_uuid [] = .ok []) ∧
    (∀ (blob : List Nat) (off fuel L : Nat), blob[off]? = some 1 →
        blob[off + 1]? = some L → 24 ≤ L → off + 24 ≤ blob.length →
        uuidWalkAux blob (fuel + 1) off =
          .ok ((blob.drop (off + 8)).take 16)) ∧
    (∀ (blob : List Nat) (off fuel L : Nat), blob[off]? = some 1 →
        blob[off + 1]? = some L → 24 ≤ L → blob.length < off + 24 →
        uuidWalkAux blob (fuel + 1) off = .ok []) ∧
    (∀ (blob : List Nat) (fuel off : Nat) (r : List Nat),
        uuidWalkAux blob fuel off = .ok r → r ≠ [] →
        ∃ o L, blob[o]? = some 1 ∧ blob[o + 1]? = some L ∧ 24 ≤ L ∧
          o + 24 ≤ blob.length ∧ r = (blob.drop (o + 8)).take 16) := by
  refine ⟨rfl, ?_, ?_, ?_⟩
  · intro blob off fuel L hty hlen hL hle
    have hofflt : off < blob.length := by omega
    simp only [uuidWalkAux]
    rw [if_pos hofflt, show rd blob off = .ok 1 by simp [rd, hty], exbind_ok,
      show rd blob (off + 1) = .ok L by simp [rd, hlen], exbind_ok,
      if_pos ⟨rfl, hL⟩, if_neg (by omega)]
  · intro blob off fuel L hty hlen hL hgt
    have hofflt : off < blob.length := by
      have := List.getElem?_eq_some_iff.mp hty
      exact this.1
    simp only [uuidWalkAux]
    rw [if_pos hofflt, show rd blob off = .ok 1 by simp [rd, hty], exbind_ok,
      show rd blob (off + 1) = .ok L by simp [rd, hlen], exbind_ok,
      if_pos ⟨rfl, hL⟩, if_pos hgt]
  · intro blob fuel
    induction fuel with
    | zero =>
        intro off r h hr
        exact absurd (Except.ok.inj h).symm hr
    | succ fuel ih =>
        intro off r h hr
        by_cases hofflt : off < blob.length
        · simp only [uuidWalkAux, if_pos hofflt] at h
          cases hty : blob[off]? with
          | none => rw [show rd blob off = .error () by simp [rd, hty],
              exbind_err] at h; cases h
          | some ty =>
              rw [show rd blob off = .ok ty by simp [rd, hty], exbind_ok] at h
              cases hlen : blob[off + 1]? with
              | none => rw [show rd blob (off + 1) = .error () by
                    simp [rd, hlen], exbind_err] at h; cases h
              | some L =>
                  rw [show rd blob (off + 1) = .ok L by simp [rd, hlen],
                    exbind_ok] at h
                  by_cases hc : ty = 1 ∧ 24 ≤ L
                  · rw [if_pos hc] at h
                    by_cases htr : blob.length < off + 24
                    · rw [if_pos htr] at h
                      exact absurd (Except.ok.inj h).symm hr
                    · rw [if_neg htr] at h
                      exact ⟨off, L, hc.1 ▸ hty, hlen, hc.2, by omega,
                        (Except.ok.inj h).symm⟩
                  · rw [if_neg hc] at h
                    by_cases hend : blob.length <
                        scanTerm blob (off + L) blob.length + 2
                    · rw [if_pos hend] at h
                      exact absurd (Except.ok.inj h).symm hr
                    · rw [if_neg hend] at h
                      exact ih _ _ h hr
        · simp only [uuidWalkAux, if_neg hofflt] at h
          exact absurd (Except.ok.inj h).symm hr

/-- A synthetic 24-byte SMBIOS blob holding exactly one Type-1 record
(type 1, length 24, handle 0, four filler bytes, then a known 16-byte UUID
at record offset 8). -/
def blobRT : List Nat :=
  [1, 24, 0, 0, 0, 0, 0, 0,
   16, 17, 18, 19, 20, 21, 22, 23, 24, 25, 26, 27, 28, 29, 30, 31]

/-- C6 witness: the round-trip clause applied at the synthetic Type-1 blob
returns exactly the planted 16 UUID bytes. -/
theorem get_smbios_uuid_postcondition_witness :
    uuidWalkAux blobRT (24 + 1) 0 = .ok ((blobRT.drop 8).take 16) ∧
    (blobRT.drop 8).take 16 =
      [16, 17, 18, 19, 20, 21, 22, 23, 24, 25, 26, 27, 28, 29, 30, 31] :=
  ⟨get_smbios_uuid_postcondition.2.1 blobRT 0 24 24 (by decide) (by decide)
      (by decide) (by decide),
   by decide⟩

/-- A blob whose first record is a type-127 end marker (length 4, empty
string table) followed by the Type-1 record of `blobRT`. -/
def blob127uuid : List Nat := [127, 4, 0, 0, 0, 0] ++ blobRT

/-- A blob whose first record is a type-127 end marker followed by a Type-1
record whose manufacturer string (index 1) is "ABC". -/
def blob127man : List Nat :=
  [127, 4, 0, 0, 0, 0, 1, 8, 0, 0, 1, 0, 0, 0, 65, 66, 67, 0, 0]

/-- C7 counterexample: a type-127 record does NOT stop either walk — a
Type-1 record placed after the end marker is still found, yielding its
16-byte UUID (respectively its manufacturer string "ABC") instead of the
claimed "not found" empty results. -/
theorem type127_not_end_marker_cex :
    get_smbios_uuid blob127uuid =
      .ok [16, 17, 18, 19, 20, 21, 22, 23, 24, 25, 26, 27, 28, 29, 30, 31] ∧
    get_smbios_manufacturer (smbios0 blob127man) = .ok [65, 66, 67] := by
  constructor <;> rfl

/-- C7 amended: neither SMBIOS walker treats type 127 as an end marker; a
type-127 record is skipped exactly like any other non-type-1 record (its
formatted area and string table are stepped over) and the walk continues at
the following record. -/
theorem walk_continues_past_type127 (blob : List Nat)
    (fuel off L : Nat) (acc : List Nat)
    (hoff : off < blob.length)
    (hty : blob[off]? = some 127)
    (hlen : blob[off + 1]? = some L)
    (hnext : scanTerm blob (off + L) blob.length + 2 ≤ blob.length) :
    uuidWalkAux blob (fuel + 1) off =
      uuidWalkAux blob fuel (scanTerm blob (off + L) blob.length + 2) ∧
    manufWalkAux blob (fuel + 1) off acc =
      manufWalkAux blob fuel (scanTerm blob (off + L) blob.length + 2) acc := by
  constructor
  · simp only [uuidWalkAux]
    rw [if_pos hoff, show rd blob off = .ok 127 by simp [rd, hty], exbind_ok,
      show rd blob (off + 1) = .ok L by simp [rd, hlen], exbind_ok,
      if_neg (by simp), if_neg (by omega)]
  · simp only [manufWalkAux]
    rw [if_pos hoff, show rd blob off = .ok 127 by simp [rd, hty], exbind_ok,
      if_neg (by simp), exbind_ok,
      show rd blob (off + 1) = .ok L by simp [rd, hlen], exbind_ok,
      if_neg (by omega)]

/-- The block-processing loop's result does not depend on the fuel, as long
as the fuel covers the input length. -/
theorem processBlocksAux_fuel (n : Nat) :
    ∀ (m : Nat) (h d : List Nat), d.length ≤ n → d.length ≤ m →
      processBlocksAux h d n = processBlocksAux h d m := by
  induction n with
  | zero =>
      intro m h d hn _
      have hde : d = [] := List.length_eq_zero.mp (Nat.le_zero.mp hn)
      subst hde
      cases m with
      | zero => rfl
      | succ m => simp [processBlocksAux]
  | succ n ih =>
      intro m h d hn hm
      cases m with
      | zero =>
          have hde : d = [] := List.length_eq_zero.mp (Nat.le_zero.mp hm)
          subst hde
          simp [processBlocksAux]
      | succ m =>
          simp only [processBlocksAux]
          by_cases hc : 64 ≤ d.length
          · rw [if_pos hc, if_pos hc]
            exact ih m _ _ (by simp; omega) (by simp; omega)
          · rw [if_neg hc, if_neg hc]

/-- A short tail (less than one block) is left untouched by the
block-processing loop. -/
theorem processBlocks_lt (h d : List Nat) (hd : d.length < 64) :
    processBlocks h d = (h, d) := by
  unfold processBlocks
  cases hn : d.length with
  | zero => rfl
  | succ k =>
      simp only [processBlocksAux]
      rw [if_neg (by omega)]

/-- With at least one full block available, the loop compresses the first
64 bytes and continues on the rest. -/
theorem processBlocks_ge (h d : List Nat) (hd : 64 ≤ d.length) :
    processBlocks h d =
      processBlocks (transform h (d.take 64)) (d.drop 64) := by
  unfold processBlocks
  obtain ⟨k, hk⟩ : ∃ k, d.length = k + 1 := ⟨d.length - 1, by omega⟩
  rw [hk]
  simp only [processBlocksAux]
  rw [if_pos (hk ▸ hd)]
  exact processBlocksAux_fuel k _ _ _ (by simp; omega) (by simp)

/-- The remainder left by the block-processing loop is always shorter than
one block. -/
theorem processBlocks_snd_lt :
    ∀ (n : Nat) (h d : List Nat), d.length ≤ n →
      (processBlocks h d).2.length < 64 := by
  intro n
  induction n with
  | zero =>
      intro h d hd
      have hde : d = [] := List.length_eq_zero.mp (Nat.le_zero.mp hd)
      subst hde
      rw [processBlocks_lt _ _ (by simp)]
      simp
  | succ n ih =>
      intro h d hd
      by_cases hc : 64 ≤ d.length
      · rw [processBlocks_ge h d hc]
        exact ih _ _ (by simp; omega)
      · rw [processBlocks_lt h d (by omega)]
        show d.length < 64
        omega

/-- Absorbing `x ++ y` equals absorbing `x`, then absorbing the leftover of
`x` followed by `y`. -/
theorem processBlocks_append :
    ∀ (n : Nat) (x y h : List Nat), x.length ≤ n →
      processBlocks h (x ++ y) =
        processBlocks (processBlocks h x).1 ((processBlocks h x).2 ++ y) := by
  intro n
  induction n with
  | zero =>
      intro x y h hx
      have hxe : x = [] := List.length_eq_zero.mp (Nat.le_zero.mp hx)
      subst hxe
      rw [processBlocks_lt h [] (by simp)]
  | succ n ih =>
      intro x y h hx
      by_cases hc : 64 ≤ x.length
      · have hxy : 64 ≤ (x ++ y).length := by simp; omega
        rw [processBlocks_ge h (x ++ y) hxy, processBlocks_ge h x hc,
          List.take_append_of_le_length hc, List.drop_append_of_le_length hc]
        exact ih (x.drop 64) y _ (by simp; omega)
      · rw [processBlocks_lt h x (by omega)]

/-- The canonical state reached after absorbing the byte sequence `m` into a
fresh context: all full blocks compressed, the tail buffered, the length
counted modulo `2^64`. -/
def stateOf (m : List Nat) : Sha256State :=
  { state := (processBlocks k_initial_hash m).1,
    block := (processBlocks k_initial_hash m).2,
    total := m.length % M64,
    finalized := false }

/-- The fresh context is the canonical state of the empty sequence. -/
theorem initCtx_eq_stateOf_nil : initCtx = stateOf [] := by
  simp [initCtx, stateOf, processBlocks, processBlocksAux]

/-- Normal form of `update` on a state whose buffer is shorter than a block:
the buffered bytes followed by the new data are absorbed as one stream. -/
theorem update_norm (s : Sha256State) (d : List Nat)
    (hb : s.block.length < 64) (hd : d ≠ []) :
    update s d =
      { state := (processBlocks s.state (s.block ++ d)).1,
        block := (processBlocks s.state (s.block ++ d)).2,
        total := (s.total + d.length) % M64,
        finalized := s.finalized } := by
  have hdl : ¬d.length = 0 := by simpa using hd
  unfold update
  rw [if_neg hdl]
  by_cases hbl : 0 < s.block.length
  · rw [if_pos hbl]
    by_cases hsp : d.length < 64 - s.block.length
    · rw [if_pos hsp]
      have hlt : (s.block ++ d).length < 64 := by simp; omega
      rw [processBlocks_lt _ _ hlt]
    · rw [if_neg hsp]
      have h64 : 64 ≤ (s.block ++ d).length := by simp; omega
      have hsplit : (64 : Nat) = s.block.length + (64 - s.block.length) := by
        omega
      have ht : (s.block ++ d).take 64 =
          s.block ++ d.take (64 - s.block.length) := by
        rw [hsplit, List.take_append]
        simp
      have hdr : (s.block ++ d).drop 64 = d.drop (64 - s.block.length) := by
        rw [hsplit, List.drop_append]
        simp
      rw [processBlocks_ge _ _ h64, ht, hdr]
  · rw [if_neg hbl]
    have hbe : s.block = [] :=
      List.length_eq_zero.mp (Nat.eq_zero_of_not_pos hbl)
    rw [hbe]
    simp

/-- Updating the canonical state of `m` with `d` reaches the canonical state
of `m ++ d`. -/
theorem update_stateOf (m d : List Nat) :
    update (stateOf m) d = stateOf (m ++ d) := by
  by_cases hd : d = []
  · subst hd
    simp [update, stateOf]
  · rw [update_norm (stateOf m) d (processBlocks_snd_lt m.length _ _ le_rfl)
      hd]
    simp only [stateOf]
    rw [← processBlocks_append m.length m d k_initial_hash le_rfl,
      List.length_append, Nat.mod_add_mod]

/-- Chained updates from the canonical state of `m` reach the canonical
state of `m` followed by all chunks. -/
theorem foldl_update_stateOf (chunks : List (List Nat)) :
    ∀ m, chunks.foldl update (stateOf m) = stateOf (m ++ chunks.flatten) := by
  induction chunks with
  | nil => intro m; simp
  | cons c t ih =>
      intro m
      simp only [List.foldl_cons, List.flatten_cons]
      rw [update_stateOf, ih, List.append_assoc]

/-- C5: incremental hashing is equivalent to one-shot hashing — a fresh
context updated with any chunk partition in order and then finalized yields
the same digest as the static one-shot hash of the concatenation. -/
theorem sha256_incremental_eq_oneshot (chunks : List (List Nat)) :
    finalizeDigest (chunks.foldl update initCtx) =
      sha256hash chunks.flatten := by
  unfold sha256hash
  rw [initCtx_eq_stateOf_nil, foldl_update_stateOf, update_stateOf]

/-- C7 witness: the step lemma applied at the concrete end-marker blob. -/
theorem walk_continues_past_type127_witness :
    uuidWalkAux blob127uuid (30 + 1) 0 =
      uuidWalkAux blob127uuid 30
        (scanTerm blob127uuid (0 + 4) blob127uuid.length + 2) ∧
    manufWalkAux blob127uuid (30 + 1) 0 [] =
      manufWalkAux blob127uuid 30
        (scanTerm blob127uuid (0 + 4) blob127uuid.length + 2) [] :=
  walk_continues_past_type127 blob127uuid 30 0 4 [] (by decide) (by decide)
    (by decide) (by decide)

end Identy
